import Mathlib

/-!
Verification of the Pybricks line-trace controller.

The definitions below are a shallow embedding of the control core of
`Perfect_Program.py` (class `LineTracer`) and, where claims refer to it,
of the module-level functions of `Level4_Program.py`.  Python floats are
modelled as rationals; every numeric literal of the source (`0.5`, `0.8`,
`0.4`, `0.3`, `0.6`, thresholds, gains) is carried over verbatim.  Device
I/O (motors, display, speaker) is modelled by returning the commanded
values; the sensor is an explicit argument.
-/

/-- Saturating clamp of `x` into `[-lim, lim]`, mirroring the two-branch
`if x > lim ... elif x < -lim ...` saturation used for the integral
(lines 138-141) and the turn rate (lines 156-159) of `Perfect_Program.py`. -/
def clampSat (x lim : ℚ) : ℚ :=
  if lim < x then lim else if x < -lim then -lim else x

/-- Result of `detect_sharp_curve`: the strings "sharp_left" / "sharp_right"
of the source; Python `None` is modelled by `Option.none`. -/
inductive CurveType where
  | sharpLeft
  | sharpRight
deriving DecidableEq

/-- A `robot.drive(speed, turn_rate)` command. -/
structure DriveCmd where
  speed : ℚ
  turnRate : ℚ
deriving DecidableEq

/-- The fields of class `LineTracer` (`Perfect_Program.py`, `__init__`,
lines 34-65, plus the `gray_zone` attribute created by `calibrate` at
line 111).  `gray_zone` is an `Option` because the Python attribute does
not exist until `calibrate` has run. -/
structure LineTracer where
  blackThreshold : ℚ
  whiteThreshold : ℚ
  targetValue : ℚ
  kp : ℚ
  ki : ℚ
  kd : ℚ
  integral : ℚ
  lastError : ℚ
  integralLimit : ℚ
  baseSpeed : ℚ
  maxTurnRate : ℚ
  errorHistory : List ℚ
  historySize : ℕ
  isCalibrated : Bool
  linePosition : ℤ
  grayZone : Option ℚ

/-- Constructor `LineTracer.__init__` (lines 34-65): default thresholds 10/85, gains
kp=2.0 ki=0.02 kd=0.8, integral limit 100, base speed 150, max turn rate
250, empty error history of capacity 10, not yet calibrated, line at
center; no `gray_zone` attribute yet. -/
def LineTracer.init : LineTracer where
  blackThreshold := 10
  whiteThreshold := 85
  targetValue := (10 + 85) / 2
  kp := 2
  ki := 0.02
  kd := 0.8
  integral := 0
  lastError := 0
  integralLimit := 100
  baseSpeed := 150
  maxTurnRate := 250
  errorHistory := []
  historySize := 10
  isCalibrated := false
  linePosition := 0
  grayZone := none

/-- The pure part of `LineTracer.calibrate` (lines 105-122): given the two
sensor samples retained at confirmation time, set
`black_threshold = black + 5`, `white_threshold = white - 5`, the target
to their midpoint, `gray_zone = (white_threshold - black_threshold) * 0.3`,
and mark the tracer calibrated. -/
def LineTracer.calibrate (t : LineTracer) (blackValue whiteValue : ℚ) : LineTracer :=
  let bt := blackValue + 5
  let wt := whiteValue - 5
  { t with
    blackThreshold := bt
    whiteThreshold := wt
    targetValue := (bt + wt) / 2
    grayZone := some ((wt - bt) * 0.3)
    isCalibrated := true }

/-- The sign-change count of `detect_oscillation` (lines 172-175): the
number of adjacent pairs of the history whose product is negative. -/
def signChanges : List ℚ → ℕ
  | a :: b :: rest => (if a * b < 0 then 1 else 0) + signChanges (b :: rest)
  | _ => 0

/-- Method `LineTracer.detect_oscillation` (lines 166-178): `False` while the
history holds fewer than `history_size` entries, otherwise whether the
sign-change count exceeds `history_size * 0.6`. -/
def LineTracer.detect_oscillation (t : LineTracer) : Bool :=
  if t.errorHistory.length < t.historySize then false
  else decide ((t.historySize : ℚ) * 0.6 < (signChanges t.errorHistory : ℚ))

/-- Method `LineTracer.calculate_pid` (lines 124-164): compute the error, append
it to the history (evicting the oldest entry beyond capacity), accumulate
and clamp the integral, halve the integral if oscillation is detected,
form `kp*error + ki*integral + kd*derivative`, clamp it to
`[-max_turn_rate, max_turn_rate]`, store the error as `last_error`, and
return the turn rate together with the updated tracer. -/
def LineTracer.calculate_pid (t : LineTracer) (v : ℚ) : ℚ × LineTracer :=
  let error := v - t.targetValue
  let h1 := t.errorHistory ++ [error]
  let h2 := if t.historySize < h1.length then h1.tail else h1
  let i1 := clampSat (t.integral + error) t.integralLimit
  let t1 := { t with errorHistory := h2, integral := i1 }
  let i2 := if t1.detect_oscillation then i1 * 0.5 else i1
  let derivative := error - t.lastError
  let turnRate := clampSat (t.kp * error + t.ki * i2 + t.kd * derivative) t.maxTurnRate
  (turnRate, { t1 with integral := i2, lastError := error })

/-- Feeding a finite sequence of sensor values to the regulator, one
`calculate_pid` call per value. -/
def LineTracer.run_pid (t : LineTracer) : List ℚ → LineTracer
  | [] => t
  | v :: vs => ((t.calculate_pid v).2).run_pid vs

/-- Method `LineTracer.detect_sharp_curve` (lines 180-187): readings within 10 of
the black threshold classify as a sharp left, readings within 10 of the
white threshold as a sharp right, anything else as no curve. -/
def LineTracer.detect_sharp_curve (t : LineTracer) (v : ℚ) : Option CurveType :=
  if v < t.blackThreshold + 10 then some CurveType.sharpLeft
  else if t.whiteThreshold - 10 < v then some CurveType.sharpRight
  else none

/-- Outcome of `LineTracer.search_line`: the returned Boolean, the number
of pivot-turn-then-sample steps performed, whether `robot.stop()` was
issued, and the tracer (whose `line_position` is updated on success). -/
structure SearchResult where
  found : Bool
  steps : ℕ
  stopped : Bool
  tracer : LineTracer

/-- The sweep loop of `search_line` (lines 200-220): for each remaining
angle, pivot by it and sample the sensor (`sensor k` is the reading taken
after the k-th pivot); a reading below the target stops the sweep with
success and records the line side from the sign of the angle; an
exhausted pattern stops the robot and reports failure. -/
def searchGo (t : LineTracer) (sensor : ℕ → ℚ) : List ℚ → ℕ → SearchResult
  | [], _ => ⟨false, 0, true, t⟩
  | a :: rest, k =>
    if sensor k < t.targetValue then
      ⟨true, 1, false, { t with linePosition := if 0 < a then -1 else 1 }⟩
    else
      let r := searchGo t sensor rest (k + 1)
      ⟨r.found, r.steps + 1, r.stopped, r.tracer⟩

/-- The direction-biased sweep sequence of `search_line` (lines 195-198). -/
def LineTracer.search_pattern (t : LineTracer) : List ℚ :=
  if t.linePosition < 0 then [30, -60, 90, -120, 150, -180]
  else [-30, 60, -90, 120, -150, 180]

/-- Method `LineTracer.search_line` (lines 189-220). -/
def LineTracer.search_line (t : LineTracer) (sensor : ℕ → ℚ) : SearchResult :=
  searchGo t sensor t.search_pattern 0

/-- The curve/PID section of one `follow_line` iteration (lines 257-285):
a sharp classification commands a fixed half-speed turn at
`±max_turn_rate*0.8` and updates the line position without touching the
regulator; otherwise `calculate_pid` runs, the speed is reduced by up to
40% with the turn rate, and the line position is set by the gray-zone
test.  The gray-zone test reads the `gray_zone` attribute: `none` models
the `AttributeError` raised if it were missing. -/
def LineTracer.controlStep (t : LineTracer) (v : ℚ) : Option (DriveCmd × LineTracer) :=
  match t.detect_sharp_curve v with
  | some CurveType.sharpLeft =>
    some (⟨t.baseSpeed * 0.5, -(t.maxTurnRate * 0.8)⟩, { t with linePosition := -1 })
  | some CurveType.sharpRight =>
    some (⟨t.baseSpeed * 0.5, t.maxTurnRate * 0.8⟩, { t with linePosition := 1 })
  | none =>
    let p := t.calculate_pid v
    let currentSpeed := t.baseSpeed * (1 - (|p.1| / t.maxTurnRate) * 0.4)
    match t.grayZone with
    | none => none
    | some g =>
      let pos : ℤ := if |v - t.targetValue| < g then 0 else if v < t.targetValue then -1 else 1
      some (⟨currentSpeed, p.1⟩, { p.2 with linePosition := pos })

/-- Everything one `follow_line` iteration produces besides device I/O. -/
structure TickResult where
  tracer : LineTracer
  lostCount : ℕ
  searchEntered : Bool
  terminated : Bool
  drive : Option DriveCmd

/-- One iteration of the `follow_line` loop (lines 236-288): the
lost-line section (lines 247-255) increments or resets the consecutive
lost counter, entering `search_line` when the incremented counter exceeds
5 — a failed search breaks the loop (`terminated`), a successful one
resets the counter — and then the curve/PID section runs on the same
reading.  `none` models the missing-attribute failure of `controlStep`. -/
def LineTracer.followTick (t : LineTracer) (c : ℕ) (v : ℚ) (sensor : ℕ → ℚ) :
    Option TickResult :=
  if t.whiteThreshold + 5 < v then
    if 5 < c + 1 then
      if (t.search_line sensor).found then
        ((t.search_line sensor).tracer.controlStep v).map
          (fun p => ⟨p.2, 0, true, false, some p.1⟩)
      else some ⟨(t.search_line sensor).tracer, c + 1, true, true, none⟩
    else (t.controlStep v).map (fun p => ⟨p.2, c + 1, false, false, some p.1⟩)
  else (t.controlStep v).map (fun p => ⟨p.2, 0, false, false, some p.1⟩)

/-- The guard at the top of `follow_line` (lines 222-226): an
uncalibrated tracer is calibrated first, with the two samples the
operator would supply. -/
def LineTracer.followLineInit (t : LineTracer) (blackValue whiteValue : ℚ) : LineTracer :=
  if t.isCalibrated then t else t.calibrate blackValue whiteValue

/-- The lost-line counter dynamics of one tick, abstracted from
`followTick` for reasoning over runs (the `search_line`-succeeds path):
given the previous counter and whether the reading was lost
(`sensor_value > white_threshold + 5`), return the next counter and
whether the search was entered. -/
def lostTickStep (c : ℕ) (lost : Bool) : ℕ × Bool :=
  if lost then (if 5 < c + 1 then (0, true) else (c + 1, false)) else (0, false)

/-- Counter after processing the first `i` ticks of `bs`, starting at `c`. -/
def countAt : ℕ → List Bool → ℕ → ℕ
  | 0, _, c => c
  | _ + 1, [], c => c
  | i + 1, b :: bs, c => countAt i bs (lostTickStep c b).1

theorem countAt_zero (bs : List Bool) (c : ℕ) : countAt 0 bs c = c := rfl

theorem countAt_succ_cons (i : ℕ) (b : Bool) (bs : List Bool) (c : ℕ) :
    countAt (i + 1) (b :: bs) c = countAt i bs (lostTickStep c b).1 := rfl

/-- Element access on Boolean tick lists, defaulting to `false`. -/
def nthB : List Bool → ℕ → Bool
  | [], _ => false
  | b :: _, 0 => b
  | _ :: bs, i + 1 => nthB bs i

/-- Per-tick search-entry trace of the lost-line counter over a run. -/
def lostTrace (c : ℕ) : List Bool → List Bool
  | [] => []
  | b :: bs => (lostTickStep c b).2 :: lostTrace (lostTickStep c b).1 bs

/-! ### Level4_Program.py -/

/-- The module-level PID state of `Level4_Program.py` (lines 25-26). -/
structure L4State where
  integral : ℚ
  lastError : ℚ
deriving DecidableEq

/-- Function `calculate_pid_control` of `Level4_Program.py` (lines 77-112):
accumulate and clamp the integral at the module constant 100, form the
PID sum, clamp it at the local constant 250, and return the turn rate,
the error, and the new state. -/
def l4_calculate_pid_control (s : L4State) (v target kp ki kd : ℚ) : ℚ × ℚ × L4State :=
  let error := v - target
  let integral := clampSat (s.integral + error) 100
  let derivative := error - s.lastError
  let turnRate := clampSat (kp * error + ki * integral + kd * derivative) 250
  (turnRate, error, ⟨integral, error⟩)

/-- Function `detect_sharp_curve` of `Level4_Program.py` (lines 142-151), whose
margin is 5. -/
def l4_detect_sharp_curve (v bt wt : ℚ) : Option CurveType :=
  if v < bt + 5 then some CurveType.sharpLeft
  else if wt - 5 < v then some CurveType.sharpRight
  else none

/-- Function `adjust_speed` of `Level4_Program.py` (lines 154-162). -/
def l4_adjust_speed (base error : ℚ) : ℚ :=
  let s := base - |error| * 0.8
  if s < 50 then 50 else s

/-- The sweep angles of `search_line` in `Level4_Program.py` (line 123). -/
def l4_search_angles : List ℚ := [30, -60, 90, -120, 150]

/-- The sweep loop of `search_line` in `Level4_Program.py` (lines 125-139). -/
def l4_search_go (target : ℚ) (sensor : ℕ → ℚ) : List ℚ → ℕ → Bool
  | [], _ => false
  | _ :: rest, k => if sensor k < target then true else l4_search_go target sensor rest (k + 1)

/-- Function `search_line` of `Level4_Program.py` (lines 115-139). -/
def l4_search_line (target : ℚ) (sensor : ℕ → ℚ) : Bool :=
  l4_search_go target sensor l4_search_angles 0

/-- Result of one iteration of the `Level4_Program.py` main loop. -/
structure L4Tick where
  state : L4State
  lostCount : ℕ
  terminated : Bool
  drive : Option DriveCmd
deriving DecidableEq

/-- The curve/PID section of the `Level4_Program.py` main loop (lines
204-224): a sharp classification drives at `BASE_SPEED*0.5` with turn
rate `±200` and resets the integral to 0; otherwise the full PID runs
with `KP=2.0, KI=0.02, KD=0.8` and the speed comes from `adjust_speed`. -/
def l4_control (s : L4State) (c : ℕ) (v target bt wt : ℚ) : L4Tick :=
  match l4_detect_sharp_curve v bt wt with
  | some CurveType.sharpLeft => ⟨⟨0, s.lastError⟩, c, false, some ⟨150 * 0.5, -200⟩⟩
  | some CurveType.sharpRight => ⟨⟨0, s.lastError⟩, c, false, some ⟨150 * 0.5, 200⟩⟩
  | none =>
    let r := l4_calculate_pid_control s v target 2 0.02 0.8
    ⟨r.2.2, c, false, some ⟨l4_adjust_speed 150 r.2.1, r.1⟩⟩

/-- One iteration of the `Level4_Program.py` main loop (lines 185-226):
the lost-line section (lines 194-202, which also zeroes the integral
after a successful search) followed by the curve/PID section. -/
def l4_tick (s : L4State) (c : ℕ) (v target bt wt : ℚ) (sensor : ℕ → ℚ) : L4Tick :=
  if wt + 5 < v then
    if 5 < c + 1 then
      if l4_search_line target sensor then l4_control ⟨0, s.lastError⟩ 0 v target bt wt
      else ⟨s, c + 1, true, none⟩
    else l4_control s (c + 1) v target bt wt
  else l4_control s 0 v target bt wt

/-- The regulator configuration of end-to-end scenario B of the spec:
`targetValue=50, kp=2.0, ki=0, kd=0, integral=0, lastError=0`, with the
maximum turn rate left as a parameter. -/
def scenarioB (m : ℚ) : LineTracer :=
  { LineTracer.init with
    kp := 2
    ki := 0
    kd := 0
    targetValue := 50
    maxTurnRate := m }

/-! ### Helper lemmas -/

theorem abs_clampSat_le (x lim : ℚ) (h : 0 ≤ lim) : |clampSat x lim| ≤ lim := by
  unfold clampSat
  split_ifs with h1 h2
  · rw [abs_of_nonneg h]
  · rw [abs_neg, abs_of_nonneg h]
  · rw [abs_le]
    constructor <;> linarith

/-! ### Claims -/

/-- C1: `calculate_pid` returns
`kp*error + ki*integral + kd*(error - lastError)` saturated into
`[-maxTurnRate, maxTurnRate]`, where `integral` is the post-clamp,
possibly oscillation-halved accumulator stored in the returned state; the
returned turn rate always satisfies the clamp bound; and on the
single-tick input `sensorValue=80, targetValue=50, kp=2, ki=0, kd=0,
integral=0, lastError=0` the result is exactly 60 whenever
`maxTurnRate ≥ 60`. -/
theorem c1_turn_rate_formula (t : LineTracer) (v m : ℚ) (hm : 60 ≤ m) :
    (t.calculate_pid v).1 =
      clampSat (t.kp * (v - t.targetValue) + t.ki * (t.calculate_pid v).2.integral +
        t.kd * ((v - t.targetValue) - t.lastError)) t.maxTurnRate
    ∧ (0 ≤ t.maxTurnRate → |(t.calculate_pid v).1| ≤ t.maxTurnRate)
    ∧ ((scenarioB m).calculate_pid 80).1 = 60 := by
  refine ⟨rfl, fun h => abs_clampSat_le _ _ h, ?_⟩
  have h1 : ¬ (m < 60) := not_lt.mpr hm
  have h2 : ¬ ((60 : ℚ) < -m) := by linarith
  simp only [LineTracer.calculate_pid, LineTracer.detect_oscillation, scenarioB,
    LineTracer.init]
  norm_num [clampSat, h1, h2]

/-- Witness for C1 at `maxTurnRate = 250`. -/
theorem c1_turn_rate_formula_witness :
    ((scenarioB 250).calculate_pid 80).1 = 60 :=
  (c1_turn_rate_formula LineTracer.init 0 250 (by norm_num)).2.2

/-- C4 counterexample: the samples `blackSample=10 < whiteSample=15`
violate `blackThreshold < targetValue < whiteThreshold` — `calibrate`
produces `blackThreshold = 15`, `whiteThreshold = 10`,
`targetValue = 12.5`. -/
theorem c4_counterexample :
    (10 : ℚ) < 15 ∧
    ¬((LineTracer.init.calibrate 10 15).blackThreshold <
        (LineTracer.init.calibrate 10 15).targetValue ∧
      (LineTracer.init.calibrate 10 15).targetValue <
        (LineTracer.init.calibrate 10 15).whiteThreshold) := by
  norm_num [LineTracer.calibrate, LineTracer.init]

/-- C4 (amended): for calibration samples separated by more than twice
the margin, `blackSample + 10 < whiteSample`, the profile computed by
`calibrate` satisfies `blackThreshold < targetValue < whiteThreshold`. -/
theorem c4_calibration_monotonic (t : LineTracer) (b w : ℚ) (h : b + 10 < w) :
    (t.calibrate b w).blackThreshold < (t.calibrate b w).targetValue ∧
    (t.calibrate b w).targetValue < (t.calibrate b w).whiteThreshold := by
  refine ⟨show b + 5 < ((b + 5) + (w - 5)) / 2 from by linarith,
    show ((b + 5) + (w - 5)) / 2 < w - 5 from by linarith⟩

/-- Witness for C4 (amended) at `blackSample=10, whiteSample=90`. -/
theorem c4_calibration_monotonic_witness :
    (LineTracer.init.calibrate 10 90).blackThreshold <
        (LineTracer.init.calibrate 10 90).targetValue ∧
    (LineTracer.init.calibrate 10 90).targetValue <
        (LineTracer.init.calibrate 10 90).whiteThreshold :=
  c4_calibration_monotonic LineTracer.init 10 90 (by norm_num)

/-- C5: the curve classifier is a pure function of the reading and the
calibration profile with margin 10: it returns SharpLeft exactly on
readings below `blackThreshold + 10`, SharpRight exactly on readings not
in the SharpLeft region and above `whiteThreshold - 10`, and None exactly
on the remaining readings. -/
theorem c5_sharp_curve_classifier (t : LineTracer) (v : ℚ) :
    (t.detect_sharp_curve v = some CurveType.sharpLeft ↔ v < t.blackThreshold + 10) ∧
    (t.detect_sharp_curve v = some CurveType.sharpRight ↔
      t.blackThreshold + 10 ≤ v ∧ t.whiteThreshold - 10 < v) ∧
    (t.detect_sharp_curve v = none ↔
      t.blackThreshold + 10 ≤ v ∧ v ≤ t.whiteThreshold - 10) := by
  have hA : t.detect_sharp_curve v = some CurveType.sharpLeft ↔ v < t.blackThreshold + 10 := by
    unfold LineTracer.detect_sharp_curve
    split_ifs with h1 h2
    · simpa using h1
    · simpa using h1
    · simpa using h1
  have hB : t.detect_sharp_curve v = some CurveType.sharpRight ↔
      t.blackThreshold + 10 ≤ v ∧ t.whiteThreshold - 10 < v := by
    unfold LineTracer.detect_sharp_curve
    split_ifs with h1 h2
    · constructor
      · intro h
        simp at h
      · rintro ⟨ha, _⟩
        linarith
    · exact ⟨fun _ => ⟨not_lt.mp h1, h2⟩, fun _ => rfl⟩
    · constructor
      · intro h
        simp at h
      · rintro ⟨_, hb⟩
        exact absurd hb h2
  have hC : t.detect_sharp_curve v = none ↔
      t.blackThreshold + 10 ≤ v ∧ v ≤ t.whiteThreshold - 10 := by
    unfold LineTracer.detect_sharp_curve
    split_ifs with h1 h2
    · constructor
      · intro h
        simp at h
      · rintro ⟨ha, _⟩
        linarith
    · constructor
      · intro h
        simp at h
      · rintro ⟨_, hb⟩
        linarith
    · exact ⟨fun _ => ⟨not_lt.mp h1, not_lt.mp h2⟩, fun _ => rfl⟩
  exact ⟨hA, hB, hC⟩

theorem integral_step_bound (t : LineTracer) (v : ℚ)
    (h : |t.integral| ≤ t.integralLimit) :
    |(t.calculate_pid v).2.integral| ≤ t.integralLimit := by
  have hL : 0 ≤ t.integralLimit := le_trans (abs_nonneg _) h
  simp only [LineTracer.calculate_pid]
  have h1 : |clampSat (t.integral + (v - t.targetValue)) t.integralLimit| ≤ t.integralLimit :=
    abs_clampSat_le _ _ hL
  have h2 : |clampSat (t.integral + (v - t.targetValue)) t.integralLimit * 0.5| ≤
      t.integralLimit := by
    rw [abs_mul]
    rw [show |(0.5 : ℚ)| = 0.5 from by norm_num]
    nlinarith [abs_nonneg (clampSat (t.integral + (v - t.targetValue)) t.integralLimit)]
  split_ifs <;> assumption

theorem run_pid_integralLimit_eq : ∀ (vs : List ℚ) (t : LineTracer),
    (t.run_pid vs).integralLimit = t.integralLimit
  | [], _ => rfl
  | v :: vs, t => (run_pid_integralLimit_eq vs (t.calculate_pid v).2).trans rfl

theorem run_pid_integral_bound : ∀ (vs : List ℚ) (t : LineTracer),
    |t.integral| ≤ t.integralLimit → |(t.run_pid vs).integral| ≤ t.integralLimit
  | [], _, h => h
  | v :: vs, t, h =>
    run_pid_integral_bound vs (t.calculate_pid v).2 (integral_step_bound t v h)

/-- C2: starting from `integral = 0`, after every update of any finite
sensor-value sequence the accumulated integral satisfies
`|integral| ≤ integralLimit`; the bound is preserved by the clamp step
and by the oscillation halving. -/
theorem c2_integral_clamp (t : LineTracer) (vs : List ℚ) (x y : ℚ)
    (h0 : t.integral = 0) (hL : 0 ≤ t.integralLimit) (hy : |y| ≤ t.integralLimit) :
    |(t.run_pid vs).integral| ≤ t.integralLimit
    ∧ |clampSat x t.integralLimit| ≤ t.integralLimit
    ∧ |y * 0.5| ≤ t.integralLimit := by
  refine ⟨run_pid_integral_bound vs t (by rw [h0]; simpa using hL),
    abs_clampSat_le _ _ hL, ?_⟩
  rw [abs_mul]
  have h2 : |(0.5 : ℚ)| = 0.5 := by norm_num
  rw [h2]
  nlinarith [abs_nonneg y]

/-- Witness for C2: the freshly constructed tracer (`integralLimit = 100`,
`integral = 0`) fed the single reading 80, with clamp inputs 500 and 100. -/
theorem c2_integral_clamp_witness :
    |(LineTracer.init.run_pid [80]).integral| ≤ LineTracer.init.integralLimit
    ∧ |clampSat 500 LineTracer.init.integralLimit| ≤ LineTracer.init.integralLimit
    ∧ |(100 : ℚ) * 0.5| ≤ LineTracer.init.integralLimit :=
  c2_integral_clamp LineTracer.init [80] 500 100 rfl
    (by norm_num [LineTracer.init]) (by norm_num [LineTracer.init])

theorem signChanges_alternating : ∀ (l : List ℚ),
    (∀ i, i + 1 < l.length → l.getD i 0 * l.getD (i + 1) 0 < 0) →
    signChanges l = l.length - 1
  | [], _ => by simp [signChanges]
  | [a], _ => by simp [signChanges]
  | a :: b :: rest, h => by
    have h0 : a * b < 0 := by
      have := h 0 (by simp)
      simpa using this
    have ih := signChanges_alternating (b :: rest) (fun i hi => by
      have hlen : (i + 1) + 1 < (a :: b :: rest).length := by
        simp only [List.length_cons] at hi ⊢
        omega
      have := h (i + 1) hlen
      simpa using this)
    simp only [signChanges, if_pos h0, ih, List.length_cons]
    omega

theorem calculate_pid_integral_eq (t : LineTracer) (v : ℚ) :
    (t.calculate_pid v).2.integral =
      (if (t.calculate_pid v).2.detect_oscillation
       then clampSat (t.integral + (v - t.targetValue)) t.integralLimit * 0.5
       else clampSat (t.integral + (v - t.targetValue)) t.integralLimit) := rfl

/-- C3: `detect_oscillation` is false while the history holds fewer than
`historySize` (=10) entries; on a full history it is true exactly when
the number of adjacent pairs with strictly opposite signs exceeds 6; on
an update tick it reports oscillation exactly when the stored integral
becomes the halved post-clamp accumulator (and otherwise the integral is
exactly the post-clamp accumulator, so the halving happens exactly once
per triggering tick, before the P/I/D terms are combined); and a full
history of strictly alternating signs triggers it. -/
theorem c3_oscillation (t : LineTracer) (v : ℚ) (h10 : t.historySize = 10) :
    (t.errorHistory.length < t.historySize → t.detect_oscillation = false)
    ∧ (t.errorHistory.length = 10 →
        (t.detect_oscillation = true ↔ 6 < signChanges t.errorHistory))
    ∧ ((t.calculate_pid v).2.detect_oscillation = true →
        (t.calculate_pid v).2.integral =
          clampSat (t.integral + (v - t.targetValue)) t.integralLimit * 0.5)
    ∧ ((t.calculate_pid v).2.detect_oscillation = false →
        (t.calculate_pid v).2.integral =
          clampSat (t.integral + (v - t.targetValue)) t.integralLimit)
    ∧ (t.errorHistory.length = 10 →
        (∀ i, i + 1 < t.errorHistory.length →
          t.errorHistory.getD i 0 * t.errorHistory.getD (i + 1) 0 < 0) →
        t.detect_oscillation = true) := by
  refine ⟨?_, ?_, ?_, ?_, ?_⟩
  · intro h
    simp [LineTracer.detect_oscillation, h]
  · intro hlen
    unfold LineTracer.detect_oscillation
    rw [hlen, h10]
    norm_num [decide_eq_true_eq]
  · intro hosc
    rw [calculate_pid_integral_eq, hosc]
    simp
  · intro hosc
    rw [calculate_pid_integral_eq, hosc]
    simp
  · intro hlen halt
    have hsc : signChanges t.errorHistory = 9 := by
      rw [signChanges_alternating _ halt, hlen]
    unfold LineTracer.detect_oscillation
    rw [hlen, h10, hsc]
    norm_num [decide_eq_true_eq]

/-- Witness for C3: a full strictly alternating history triggers the
oscillation detector. -/
theorem c3_oscillation_witness :
    ({ LineTracer.init with errorHistory := [30, -30, 30, -30, 30, -30, 30, -30, 30, -30] } : LineTracer).detect_oscillation = true :=
  (c3_oscillation _ 0 rfl).2.2.2.2 rfl (by
    intro i hi
    simp only [List.length_cons, List.length_nil] at hi
    have h9 : i < 9 := by omega
    interval_cases i <;> norm_num [List.getD_cons_zero, List.getD_cons_succ])

/-- C6 counterexample: on a sharp-curve tick, `follow_line` of
`Perfect_Program.py` does not reset the integral: a tracer whose
integral is 7 keeps integral 7 through the sharp-left branch. -/
theorem c6_counterexample :
    LineTracer.detect_sharp_curve { LineTracer.init with integral := 7 } 5 =
      some CurveType.sharpLeft
    ∧ (({ LineTracer.init with integral := 7 } : LineTracer).controlStep 5).map
        (fun p => p.2.integral) = some 7
    ∧ (7 : ℚ) ≠ 0 := by
  refine ⟨?_, ?_, by norm_num⟩
  · norm_num [LineTracer.detect_sharp_curve, LineTracer.init]
  · norm_num [LineTracer.controlStep, LineTracer.detect_sharp_curve, LineTracer.init]

/-- C6 (amended): on a sharp tick the orchestrator bypasses the PID
regulator and commands half base speed with turn magnitude
`maxTurnRate*0.8` signed by the direction; in `Perfect_Program.py` the
regulator state (integral, lastError, errorHistory) is left completely
unchanged — it is not reset — while the `Level4_Program.py` loop
additionally resets the integral to 0 on that tick (its turn magnitude
200 equals its `max_turn * 0.8 = 250 * 0.8`). -/
theorem c6_sharp_curve_bypass (t : LineTracer) (v : ℚ) (s : L4State) (c : ℕ)
    (target bt wt : ℚ) (sensor : ℕ → ℚ) (hseen : ¬(wt + 5 < v)) :
    (t.detect_sharp_curve v = some CurveType.sharpLeft →
      t.controlStep v =
        some (⟨t.baseSpeed * 0.5, -(t.maxTurnRate * 0.8)⟩, { t with linePosition := -1 }))
    ∧ (t.detect_sharp_curve v = some CurveType.sharpRight →
      t.controlStep v =
        some (⟨t.baseSpeed * 0.5, t.maxTurnRate * 0.8⟩, { t with linePosition := 1 }))
    ∧ (∀ p d u, t.detect_sharp_curve v = some p → t.controlStep v = some (d, u) →
        u.integral = t.integral ∧ u.lastError = t.lastError ∧
        u.errorHistory = t.errorHistory ∧ d.speed = t.baseSpeed * 0.5)
    ∧ (l4_detect_sharp_curve v bt wt = some CurveType.sharpLeft →
      l4_tick s c v target bt wt sensor =
        ⟨⟨0, s.lastError⟩, 0, false, some ⟨150 * 0.5, -(250 * 0.8)⟩⟩)
    ∧ (l4_detect_sharp_curve v bt wt = some CurveType.sharpRight →
      l4_tick s c v target bt wt sensor =
        ⟨⟨0, s.lastError⟩, 0, false, some ⟨150 * 0.5, 250 * 0.8⟩⟩) := by
  refine ⟨?_, ?_, ?_, ?_, ?_⟩
  · intro h
    simp [LineTracer.controlStep, h]
  · intro h
    simp [LineTracer.controlStep, h]
  · intro p d u hp hstep
    cases p <;> simp [LineTracer.controlStep, hp] at hstep <;>
      rcases hstep with ⟨hd, hu⟩ <;> subst hd <;> subst hu <;> exact ⟨rfl, rfl, rfl, rfl⟩
  · intro h
    simp [l4_tick, hseen, l4_control, h]
    norm_num
  · intro h
    simp [l4_tick, hseen, l4_control, h]
    norm_num

/-- Witness for C6 (amended) on a sharp-left tick at reading 5. -/
theorem c6_sharp_curve_bypass_witness :
    LineTracer.init.controlStep 5 =
      some (⟨LineTracer.init.baseSpeed * 0.5, -(LineTracer.init.maxTurnRate * 0.8)⟩,
        { LineTracer.init with linePosition := -1 }) :=
  (c6_sharp_curve_bypass LineTracer.init 5 ⟨0, 0⟩ 0 47.5 10 85 (fun _ => 0)
      (by norm_num)).1
    (by norm_num [LineTracer.detect_sharp_curve, LineTracer.init])

/-- C9: on a non-sharp tick the commanded drive is
`(baseSpeed * (1 - (|turnRate| / maxTurnRate) * 0.4), turnRate)` with
`turnRate` the regulator output of that tick, and the commanded speed
lies in `[0.6 * baseSpeed, baseSpeed]`. -/
theorem c9_speed_adjust (t : LineTracer) (v g : ℚ) (hg : t.grayZone = some g)
    (hcurve : t.detect_sharp_curve v = none) (hmax : 0 < t.maxTurnRate)
    (hbase : 0 ≤ t.baseSpeed) :
    (t.controlStep v).map Prod.fst =
      some ⟨t.baseSpeed * (1 - (|(t.calculate_pid v).1| / t.maxTurnRate) * 0.4),
        (t.calculate_pid v).1⟩
    ∧ 0.6 * t.baseSpeed ≤
        t.baseSpeed * (1 - (|(t.calculate_pid v).1| / t.maxTurnRate) * 0.4)
    ∧ t.baseSpeed * (1 - (|(t.calculate_pid v).1| / t.maxTurnRate) * 0.4) ≤
        t.baseSpeed := by
  have hre : (t.calculate_pid v).1 =
      clampSat (t.kp * (v - t.targetValue) + t.ki * (t.calculate_pid v).2.integral +
        t.kd * ((v - t.targetValue) - t.lastError)) t.maxTurnRate := rfl
  have habs : |(t.calculate_pid v).1| ≤ t.maxTurnRate := by
    rw [hre]
    exact abs_clampSat_le _ _ hmax.le
  have hq0 : 0 ≤ |(t.calculate_pid v).1| / t.maxTurnRate :=
    div_nonneg (abs_nonneg _) hmax.le
  have hq1 : |(t.calculate_pid v).1| / t.maxTurnRate ≤ 1 := (div_le_one hmax).mpr habs
  refine ⟨?_, ?_, ?_⟩
  · simp [LineTracer.controlStep, hcurve, hg]
  · nlinarith [mul_nonneg hbase (sub_nonneg.mpr hq1)]
  · nlinarith [mul_nonneg hbase hq0]

/-- Witness for C9 on the centered reading 47.5 with a calibrated gray
zone. -/
theorem c9_speed_adjust_witness :
    (({ LineTracer.init with grayZone := some 22.5 } : LineTracer).controlStep 47.5).map
        Prod.fst =
      some ⟨({ LineTracer.init with grayZone := some 22.5 } : LineTracer).baseSpeed *
          (1 - (|(({ LineTracer.init with grayZone := some 22.5 } : LineTracer).calculate_pid 47.5).1| /
            ({ LineTracer.init with grayZone := some 22.5 } : LineTracer).maxTurnRate) * 0.4),
        (({ LineTracer.init with grayZone := some 22.5 } : LineTracer).calculate_pid 47.5).1⟩ :=
  (c9_speed_adjust { LineTracer.init with grayZone := some 22.5 } 47.5 22.5 rfl
    (by norm_num [LineTracer.detect_sharp_curve, LineTracer.init])
    (by norm_num [LineTracer.init]) (by norm_num [LineTracer.init])).1

theorem countAt_le5 : ∀ (i : ℕ) (bs : List Bool) (c : ℕ), c ≤ 5 → countAt i bs c ≤ 5 := by
  intro i
  induction i with
  | zero =>
    intro bs c hc
    rw [countAt_zero]
    exact hc
  | succ i ih =>
    intro bs c hc
    cases bs with
    | nil => exact hc
    | cons b bs =>
      rw [countAt_succ_cons]
      apply ih
      unfold lostTickStep
      split_ifs <;> simp
      omega

theorem countAt_trace_nth : ∀ (bs : List Bool) (c i : ℕ), i < bs.length →
    nthB (lostTrace c bs) i = (lostTickStep (countAt i bs c) (nthB bs i)).2 := by
  intro bs
  induction bs with
  | nil =>
    intro c i h
    simp at h
  | cons b bs ih =>
    intro c i h
    cases i with
    | zero => rfl
    | succ i =>
      have h' : i < bs.length := by simpa using h
      exact ih (lostTickStep c b).1 i h'

theorem countAt_back : ∀ (bs : List Bool) (c i k : ℕ), i < bs.length →
    countAt (i + 1) bs c = k + 1 →
    nthB bs i = true ∧ countAt i bs c = k := by
  intro bs
  induction bs with
  | nil =>
    intro c i k h
    simp at h
  | cons b bs ih =>
    intro c i k hlen hc
    cases i with
    | zero =>
      rw [countAt_succ_cons, countAt_zero] at hc
      unfold lostTickStep at hc
      split_ifs at hc with hb h5
      simp at hc
      constructor
      · show b = true
        exact hb
      · rw [countAt_zero]
        omega
    | succ i =>
      have h' : i < bs.length := by simpa using hlen
      rw [countAt_succ_cons] at hc
      exact ih (lostTickStep c b).1 i k h' hc

theorem countAt_chain : ∀ (k : ℕ) (bs : List Bool) (i : ℕ), i ≤ bs.length →
    countAt i bs 0 = k →
    k ≤ i ∧ ∀ j, i - k ≤ j → j < i → nthB bs j = true := by
  intro k
  induction k with
  | zero =>
    intro bs i hi hc
    exact ⟨Nat.zero_le _, fun j hj1 hj2 => absurd hj2 (by omega)⟩
  | succ k ih =>
    intro bs i hi hc
    cases i with
    | zero =>
      rw [countAt_zero] at hc
      omega
    | succ i =>
      have hlen : i < bs.length := by omega
      obtain ⟨hb, hc'⟩ := countAt_back bs 0 i k hlen hc
      obtain ⟨hk, hall⟩ := ih bs i (by omega) hc'
      refine ⟨by omega, ?_⟩
      intro j hj1 hj2
      by_cases hji : j = i
      · rw [hji]
        exact hb
      · exact hall j (by omega) (by omega)

/-- C7: per tick, the lost counter increments on a reading above
`whiteThreshold + 5` and resets to zero otherwise, the search is entered
exactly when the incremented counter exceeds 5 (and, when the search
succeeds, the counter is reset); over any run started at counter 0, a
tick that enters the search is the 6th of at least 6 consecutive lost
ticks — none of the 5 preceding ticks saw the line; and six consecutive
lost ticks enter the search exactly on the 6th. -/
theorem c7_lost_line_counter (t : LineTracer) (c : ℕ) (v : ℚ) (sensor : ℕ → ℚ)
    (r : TickResult) (bs : List Bool) (i : ℕ)
    (hr : t.followTick c v sensor = some r)
    (hent : nthB (lostTrace 0 bs) i = true) (hlen : i < bs.length) :
    (r.searchEntered = true ↔ (t.whiteThreshold + 5 < v ∧ 5 < c + 1))
    ∧ (¬(t.whiteThreshold + 5 < v) → r.lostCount = 0)
    ∧ (t.whiteThreshold + 5 < v → ¬(5 < c + 1) → r.lostCount = c + 1)
    ∧ (t.whiteThreshold + 5 < v → 5 < c + 1 → r.terminated = false → r.lostCount = 0)
    ∧ (5 ≤ i ∧ ∀ j, i - 5 ≤ j → j ≤ i → nthB bs j = true)
    ∧ lostTrace 0 [true, true, true, true, true, true] =
        [false, false, false, false, false, true] := by
  have htick : (r.searchEntered = true ↔ (t.whiteThreshold + 5 < v ∧ 5 < c + 1))
      ∧ (¬(t.whiteThreshold + 5 < v) → r.lostCount = 0)
      ∧ (t.whiteThreshold + 5 < v → ¬(5 < c + 1) → r.lostCount = c + 1)
      ∧ (t.whiteThreshold + 5 < v → 5 < c + 1 → r.terminated = false →
          r.lostCount = 0) := by
    unfold LineTracer.followTick at hr
    split_ifs at hr with h1 h2 h3
    · cases hx : ((t.search_line sensor).tracer.controlStep v) with
      | none =>
        rw [hx] at hr
        simp at hr
      | some p =>
        rw [hx] at hr
        simp only [Option.map_some', Option.some.injEq] at hr
        subst hr
        exact ⟨by simp [h1, h2], fun h => absurd h1 h, fun _ h => absurd h2 h,
          fun _ _ _ => rfl⟩
    · simp only [Option.some.injEq] at hr
      subst hr
      refine ⟨by simp [h1, h2], fun h => absurd h1 h, fun _ h => absurd h2 h, ?_⟩
      intro _ _ hterm
      simp at hterm
    · cases hx : (t.controlStep v) with
      | none =>
        rw [hx] at hr
        simp at hr
      | some p =>
        rw [hx] at hr
        simp only [Option.map_some', Option.some.injEq] at hr
        subst hr
        exact ⟨by simp [h2], fun h => absurd h1 h, fun _ _ => rfl,
          fun _ h => absurd h h2⟩
    · cases hx : (t.controlStep v) with
      | none =>
        rw [hx] at hr
        simp at hr
      | some p =>
        rw [hx] at hr
        simp only [Option.map_some', Option.some.injEq] at hr
        subst hr
        exact ⟨by simp [h1], fun _ => rfl, fun h => absurd h h1, fun h => absurd h h1⟩
  refine ⟨htick.1, htick.2.1, htick.2.2.1, htick.2.2.2, ?_, by decide⟩
  have hstep : (lostTickStep (countAt i bs 0) (nthB bs i)).2 = true := by
    rw [← countAt_trace_nth bs 0 i hlen]
    exact hent
  unfold lostTickStep at hstep
  split_ifs at hstep with hb h5
  · have hle : countAt i bs 0 ≤ 5 := countAt_le5 i bs 0 (by omega)
    have h5' : countAt i bs 0 = 5 := by omega
    obtain ⟨hk, hall⟩ := countAt_chain 5 bs i (le_of_lt hlen) h5'
    refine ⟨hk, ?_⟩
    intro j hj1 hj2
    by_cases hji : j = i
    · rw [hji]
      exact hb
    · exact hall j (by omega) (by omega)

theorem searchGo_all_miss (t : LineTracer) (sensor : ℕ → ℚ)
    (hs : ∀ k, t.targetValue ≤ sensor k) :
    ∀ (l : List ℚ) (k : ℕ), searchGo t sensor l k = ⟨false, l.length, true, t⟩ := by
  intro l
  induction l with
  | nil =>
    intro k
    rfl
  | cons a rest ih =>
    intro k
    have hmiss : ¬ (sensor k < t.targetValue) := not_lt.mpr (hs k)
    simp [searchGo, hmiss, ih (k + 1)]

theorem search_pattern_length (t : LineTracer) : t.search_pattern.length = 6 := by
  unfold LineTracer.search_pattern
  split_ifs <;> rfl

/-- C8: if every sample taken during the sweep is at or above the target
(the line is never reacquired), `search_line` performs exactly 6
pivot-then-sample steps — the length of its sweep sequence — stops the
robot, and returns failure, and the tick that entered it terminates the
control loop as the line-lost outcome. -/
theorem c8_search_failure (t : LineTracer) (sensor : ℕ → ℚ) (v : ℚ) (c : ℕ)
    (hs : ∀ k, t.targetValue ≤ sensor k) (hv : t.whiteThreshold + 5 < v)
    (hc : 5 < c + 1) :
    t.search_pattern.length = 6
    ∧ t.search_line sensor = ⟨false, 6, true, t⟩
    ∧ t.followTick c v sensor = some ⟨t, c + 1, true, true, none⟩ := by
  have hsearch : t.search_line sensor = ⟨false, 6, true, t⟩ := by
    unfold LineTracer.search_line
    rw [searchGo_all_miss t sensor hs t.search_pattern 0, search_pattern_length]
  refine ⟨search_pattern_length t, hsearch, ?_⟩
  unfold LineTracer.followTick
  rw [if_pos hv, if_pos hc, hsearch]
  simp

/-- Witness for C8: the fresh tracer, a sensor constantly reading 50
(above the target 47.5), a lost reading 95 and counter 5. -/
theorem c8_search_failure_witness :
    LineTracer.init.search_line (fun _ => 50) = ⟨false, 6, true, LineTracer.init⟩ :=
  (c8_search_failure LineTracer.init (fun _ => 50) 95 5
    (fun _ => by norm_num [LineTracer.init]) (by norm_num [LineTracer.init])
    (by norm_num)).2.1

theorem searchGo_tracer_grayZone (u : LineTracer) (sensor : ℕ → ℚ) :
    ∀ (l : List ℚ) (k : ℕ), (searchGo u sensor l k).tracer.grayZone = u.grayZone := by
  intro l
  induction l with
  | nil =>
    intro k
    rfl
  | cons a rest ih =>
    intro k
    by_cases h : sensor k < u.targetValue
    · simp [searchGo, h]
    · simp only [searchGo, if_neg h]
      exact ih (k + 1)

/-- C10: the entry guard of `follow_line` calibrates an uncalibrated
tracer, and `calibrate` is the only way the `gray_zone` attribute comes
into existence (the constructor leaves it absent); consequently, for any
tracer satisfying the object invariant "calibrated implies gray zone
present", every tick after the entry guard reaches the gray-zone read of
the PID branch with the attribute defined, so the branch is total. -/
theorem c10_gray_zone_defined (t : LineTracer) (b w v : ℚ) (c : ℕ) (sensor : ℕ → ℚ)
    (hinv : t.isCalibrated = true → t.grayZone.isSome) :
    LineTracer.init.isCalibrated = false
    ∧ LineTracer.init.grayZone = none
    ∧ (t.calibrate b w).grayZone.isSome
    ∧ (t.calibrate b w).isCalibrated = true
    ∧ (t.followLineInit b w).grayZone.isSome
    ∧ (∀ u : LineTracer, u.grayZone.isSome → (u.controlStep v).isSome)
    ∧ (∀ u : LineTracer, u.grayZone.isSome → (u.followTick c v sensor).isSome)
    ∧ ((t.followLineInit b w).followTick c v sensor).isSome := by
  have hcs : ∀ u : LineTracer, u.grayZone.isSome → (u.controlStep v).isSome := by
    intro u hu
    unfold LineTracer.controlStep
    cases hc2 : u.detect_sharp_curve v with
    | some ct => cases ct <;> simp
    | none =>
      cases hg : u.grayZone with
      | none =>
        rw [hg] at hu
        simp at hu
      | some g => simp
  have hft : ∀ u : LineTracer, u.grayZone.isSome → (u.followTick c v sensor).isSome := by
    intro u hu
    unfold LineTracer.followTick
    split_ifs with h1 h2 h3
    · have hu' : (u.search_line sensor).tracer.grayZone.isSome := by
        unfold LineTracer.search_line
        rw [searchGo_tracer_grayZone u sensor u.search_pattern 0]
        exact hu
      cases hx : ((u.search_line sensor).tracer.controlStep v) with
      | none =>
        have := hcs (u.search_line sensor).tracer hu'
        rw [hx] at this
        simp at this
      | some p => simp [hx]
    · simp
    · cases hx : (u.controlStep v) with
      | none =>
        have := hcs u hu
        rw [hx] at this
        simp at this
      | some p => simp [hx]
    · cases hx : (u.controlStep v) with
      | none =>
        have := hcs u hu
        rw [hx] at this
        simp at this
      | some p => simp [hx]
  have hinit : (t.followLineInit b w).grayZone.isSome := by
    unfold LineTracer.followLineInit
    split_ifs with hcal
    · exact hinv hcal
    · simp [LineTracer.calibrate]
  exact ⟨rfl, rfl, by simp [LineTracer.calibrate], rfl, hinit, hcs, hft, hft _ hinit⟩

/-- Witness for C10: the freshly constructed, uncalibrated tracer. -/
theorem c10_gray_zone_defined_witness :
    ((LineTracer.init.followLineInit 10 90).followTick 0 47.5 (fun _ => 0)).isSome :=
  (c10_gray_zone_defined LineTracer.init 10 90 47.5 0 (fun _ => 0)
    (fun h => by simp [LineTracer.init] at h)).2.2.2.2.2.2.2

/-- Witness for C7: a tick on the fresh tracer with the line seen, and a
six-tick all-lost run entering search exactly on the 6th tick. -/
theorem c7_lost_line_counter_witness :
    lostTrace 0 [true, true, true, true, true, true] =
      [false, false, false, false, false, true] :=
  (c7_lost_line_counter LineTracer.init 0 0 (fun _ => 0)
    ⟨{ LineTracer.init with linePosition := -1 }, 0, false, false, some ⟨75, -200⟩⟩
    [true, true, true, true, true, true] 5
    (by norm_num [LineTracer.followTick, LineTracer.controlStep,
      LineTracer.detect_sharp_curve, LineTracer.init])
    (by decide) (by decide)).2.2.2.2.2
